import Mathlib

/-!
# clusterloader2 `measurement.MeasurementManager`

A shallow embedding of `clusterloader2/pkg/measurement/manager.go`.

* Go pointers are addresses (`Nat`); a `Measurement` interface value is the
  address of the object behind it.
* Go maps are association lists with replace-or-append insertion; the
  representation invariant of a map (no key twice) is `MapWF`.
* The collaborators of the manager (the registry of constructors, and the
  `Execute` and `Dispose` methods of measurement objects) are the fields of an
  environment `Env W`; their side effects act on an abstract world `W`.
* `State.trace` is ghost state.  It logs, in program order, the mutex
  operations, the calls made to collaborators and the write to the summary
  accumulator.  No operation ever reads it.
* Calls are sequential: every operation runs to completion before the next
  one starts.
-/

namespace measurement

/-! ## Data model -/

/-- Address of a heap object (`*framework.MultiClientSet`, `*config.ClusterConfig`, ...). -/
abbrev Ptr := Nat

/-- Modelled from the spec: the `Summary` interface is declared outside `manager.go`;
the spec describes it as an opaque artifact exposing a name and serializable content. -/
structure Summary where
  name : String
  content : String
deriving DecidableEq, Repr

/-- A non-nil Go `error`, identified by its message; a nil error is `none : Option Error`. -/
abbrev Error := String

/-- The untyped parameter mapping `map[string]interface{}` handed through to measurements. -/
abbrev ParamMap := List (String × String)

/-- A `Measurement` interface value, identified by the address of its object. -/
abbrev Measurement := Nat

/-- The zero value of the `Measurement` interface, read from a map at a missing key. -/
def nilMeasurement : Measurement := 0

/-- The struct literal built in `Execute` (manager.go, lines 57-64). -/
structure MeasurementConfig where
  ClientSets : Ptr
  DynamicClients : Ptr
  ClusterConfig : Ptr
  Params : ParamMap
  TemplateProvider : Ptr
  Identifier : String
deriving DecidableEq, Repr

/-- The part of `framework.Framework` read by `CreateMeasurementManager`:
the results of `GetClientSets()` and `GetDynamicClients()`. -/
structure Framework where
  clientSets : Ptr
  dynamicClients : Ptr
deriving DecidableEq, Repr

/-- The inner map `map[string]Measurement`, from identifier to instance. -/
abbrev InstanceMap := List (String × Measurement)

/-- The field `measurements map[string]map[string]Measurement`. -/
abbrev MeasurementMap := List (String × InstanceMap)

/-- The struct `MeasurementManager` (manager.go, lines 27-37).  The mutex field `lock`
has no value of its own here: calls are sequential, so it is free between calls, and
its operations appear as `Event.lock` and `Event.unlock` in the trace. -/
structure MeasurementManager where
  clientSets : Ptr
  dynamicClients : Ptr
  clusterConfig : Ptr
  templateProvider : Ptr
  measurements : MeasurementMap
  summaries : List Summary
deriving DecidableEq, Repr

/-- Ghost events, logged in program order. -/
inductive Event where
  | lock
  | unlock
  | createMeasurement (methodName : String)
  | execute (inst : Measurement) (config : MeasurementConfig)
  | appendSummaries (summaries : List Summary)
  | dispose (inst : Measurement)
deriving DecidableEq, Repr

/-- The collaborators of the manager, acting on a world `W`. -/
structure Env (W : Type) where
  /-- The registry: the table from method name to constructor. -/
  createFuncs : String → Option (W → Except Error Measurement × W)
  /-- The error the factory returns for a method name missing from the registry. -/
  unknownMethod : String → Error
  /-- The method `Measurement.Execute(config)`, returning `([]Summary, error)`. -/
  execute : Measurement → MeasurementConfig → W → (List Summary × Option Error) × W
  /-- The method `Measurement.Dispose()`. -/
  dispose : Measurement → W → W

/-- Manager, world and ghost trace. -/
structure State (W : Type) where
  mm : MeasurementManager
  world : W
  trace : List Event

/-! ## Go maps -/

/-- The read `v, exists := m[k]`. -/
def mapLookup {β : Type} (k : String) : List (String × β) → Option β
  | [] => none
  | (k', v) :: rest => if k = k' then some v else mapLookup k rest

/-- The write `m[k] = v`: replaces the value of an existing key, adds a missing one. -/
def mapInsert {β : Type} (k : String) (v : β) : List (String × β) → List (String × β)
  | [] => [(k, v)]
  | (k', v') :: rest => if k = k' then (k, v) :: rest else (k', v') :: mapInsert k v rest

/-- The read `_, exists := mm.measurements[methodName][identifier]`; indexing the nil
inner map of a missing method finds nothing. -/
def mapIndex2 (methodName identifier : String) (m : MeasurementMap) : Option Measurement :=
  (mapLookup methodName m).bind (mapLookup identifier)

/-- The value of the expression `mm.measurements[methodName][identifier]`. -/
def mapGet2 (methodName identifier : String) (m : MeasurementMap) : Measurement :=
  (mapIndex2 methodName identifier m).getD nilMeasurement

/-- The write `mm.measurements[methodName][identifier] = v`. -/
def mapInsert2 (methodName identifier : String) (v : Measurement) (m : MeasurementMap) :
    MeasurementMap :=
  mapInsert methodName (mapInsert identifier v ((mapLookup methodName m).getD [])) m

/-- Representation invariant of the nested Go map: no method name and, under one
method, no identifier is stored twice. -/
def MapWF (m : MeasurementMap) : Prop :=
  (m.map Prod.fst).Nodup ∧ ∀ e ∈ m, (e.2.map Prod.fst).Nodup

instance (m : MeasurementMap) : Decidable (MapWF m) := by
  unfold MapWF
  infer_instance

/-- The effect of lines 87-89 on the map: a missing method gets an empty inner map. -/
def ensureMethod (methodName : String) (m : MeasurementMap) : MeasurementMap :=
  match mapLookup methodName m with
  | none => mapInsert methodName [] m
  | some _ => m

/-- All (method, identifier) pairs stored in the map. -/
def cachedPairs (m : MeasurementMap) : List (String × String) :=
  m.flatMap fun e => e.2.map fun x => (e.1, x.1)

/-- The instances stored in the map, one occurrence per stored pair, in storage order. -/
def cachedInstances (m : MeasurementMap) : List Measurement :=
  m.flatMap fun e => e.2.map Prod.snd

/-- The order in which one run of the two `for range` loops of `Dispose` visits the
methods and, under each method, the identifiers.  Go leaves the iteration order of a map
unspecified and varies it from run to run: any permutation of the entries may come up. -/
structure RangeOrder where
  /-- The order of the outer loop over `mm.measurements`. -/
  methods : MeasurementMap → MeasurementMap
  /-- The order of the inner loop over the instances of one method. -/
  instances : String → InstanceMap → InstanceMap
  methods_perm : ∀ m, (methods m).Perm m
  instances_perm : ∀ methodName m, (instances methodName m).Perm m

/-- The iteration order that follows the storage order. -/
def storageOrder : RangeOrder :=
  { methods := fun m => m
    instances := fun _ m => m
    methods_perm := fun _ => List.Perm.refl _
    instances_perm := fun _ _ => List.Perm.refl _ }

/-- The iteration order that reverses the storage order in both loops. -/
def reverseOrder : RangeOrder :=
  { methods := fun m => m.reverse
    instances := fun _ m => m.reverse
    methods_perm := fun m => List.reverse_perm m
    instances_perm := fun _ m => List.reverse_perm m }

/-- The instances visited by the two loops of `Dispose` under one iteration order. -/
def visitedInstances (order : RangeOrder) (m : MeasurementMap) : List Measurement :=
  (order.methods m).flatMap fun e => (order.instances e.1 e.2).map Prod.snd

/-! ## State helpers -/

/-- Appends one event to the ghost trace. -/
def State.emit {W : Type} (s : State W) (e : Event) : State W :=
  { s with trace := s.trace ++ [e] }

/-- Replaces the world after a collaborator ran. -/
def State.setWorld {W : Type} (s : State W) (w : W) : State W :=
  { s with world := w }

/-- Assigns the field `mm.measurements`. -/
def State.setMeasurements {W : Type} (s : State W) (m : MeasurementMap) : State W :=
  { s with mm := { s.mm with measurements := m } }

/-- Assigns the field `mm.summaries`. -/
def State.setSummaries {W : Type} (s : State W) (l : List Summary) : State W :=
  { s with mm := { s.mm with summaries := l } }

/-! ## The factory -/

/-- Modelled from the spec: `factory.createMeasurement` is defined outside `manager.go`.
Section 4.1 of the spec: a static lookup table from method name to constructor; an
unknown method name fails immediately, with no side effect; a known method runs its
constructor, which may itself fail (section 7, ConstructionError). -/
def Env.createMeasurement {W : Type} (env : Env W) (methodName : String) (w : W) :
    Except Error Measurement × W :=
  match env.createFuncs methodName with
  | none => (Except.error (env.unknownMethod methodName), w)
  | some construct => construct w

/-! ## The manager's operations -/

/-- The function `CreateMeasurementManager` (manager.go, lines 40-49). -/
def CreateMeasurementManager (f : Framework) (clusterConfig templateProvider : Ptr) :
    MeasurementManager :=
  { clientSets := f.clientSets
    dynamicClients := f.dynamicClients
    clusterConfig := clusterConfig
    templateProvider := templateProvider
    measurements := []
    summaries := [] }

/-- The state right after `CreateMeasurementManager`, in world `w`, with an empty trace. -/
def initState {W : Type} (f : Framework) (clusterConfig templateProvider : Ptr) (w : W) :
    State W :=
  { mm := CreateMeasurementManager f clusterConfig templateProvider, world := w, trace := [] }

/-- The method `getMeasurementInstance` (manager.go, lines 84-98). -/
def getMeasurementInstance {W : Type} (env : Env W) (methodName identifier : String)
    (s : State W) : Except Error Measurement × State W :=
  -- mm.lock.Lock(); defer mm.lock.Unlock()
  let s1 := s.emit Event.lock
  -- if _, exists := mm.measurements[methodName]; !exists
  let s2 :=
    match mapLookup methodName s1.mm.measurements with
    | none => s1.setMeasurements (mapInsert methodName [] s1.mm.measurements)
    | some _ => s1
  -- if _, exists := mm.measurements[methodName][identifier]; !exists
  match mapIndex2 methodName identifier s2.mm.measurements with
  | none =>
    -- measurementInstance, err := factory.createMeasurement(methodName)
    let s3 := s2.emit (Event.createMeasurement methodName)
    match env.createMeasurement methodName s3.world with
    | (Except.error err, w) =>
      -- return nil, err
      (Except.error err, (s3.setWorld w).emit Event.unlock)
    | (Except.ok measurementInstance, w) =>
      -- mm.measurements[methodName][identifier] = measurementInstance
      let s4 := (s3.setWorld w).setMeasurements
        (mapInsert2 methodName identifier measurementInstance s3.mm.measurements)
      (Except.ok (mapGet2 methodName identifier s4.mm.measurements), s4.emit Event.unlock)
  | some _ =>
    -- return mm.measurements[methodName][identifier], nil
    (Except.ok (mapGet2 methodName identifier s2.mm.measurements), s2.emit Event.unlock)

/-- The config literal of `Execute` (manager.go, lines 57-64). -/
def mkConfig (mm : MeasurementManager) (identifier : String) (params : ParamMap) :
    MeasurementConfig :=
  { ClientSets := mm.clientSets
    DynamicClients := mm.dynamicClients
    ClusterConfig := mm.clusterConfig
    Params := params
    TemplateProvider := mm.templateProvider
    Identifier := identifier }

/-- The method `Execute` (manager.go, lines 52-68); `none` is the nil error. -/
def Execute {W : Type} (env : Env W) (methodName identifier : String) (params : ParamMap)
    (s : State W) : Option Error × State W :=
  match getMeasurementInstance env methodName identifier s with
  | (Except.error err, s1) => (some err, s1)
  | (Except.ok measurementInstance, s1) =>
    let config := mkConfig s1.mm identifier params
    -- summaries, err := measurementInstance.Execute(config)
    let s2 := s1.emit (Event.execute measurementInstance config)
    let r := env.execute measurementInstance config s2.world
    -- mm.summaries = append(mm.summaries, summaries...)
    let s3 := ((s2.setWorld r.2).emit (Event.appendSummaries r.1.1)).setSummaries
      (s2.mm.summaries ++ r.1.1)
    (r.1.2, s3)

/-- The method `GetSummaries` (manager.go, lines 71-73), with the state it leaves. -/
def GetSummaries {W : Type} (s : State W) : List Summary × State W :=
  (s.mm.summaries, s)

/-- The body of the inner loop of `Dispose`: `measurement.Dispose()`. -/
def disposeOne {W : Type} (env : Env W) (s : State W) (x : String × Measurement) : State W :=
  (s.emit (Event.dispose x.2)).setWorld (env.dispose x.2 s.world)

/-- The method `Dispose` (manager.go, lines 76-82).  Go leaves the iteration order of a
map unspecified; `order` is the order the two loops take in this run. -/
def Dispose {W : Type} (env : Env W) (order : RangeOrder) (s : State W) : State W :=
  (order.methods s.mm.measurements).foldl
    (fun st instances => (order.instances instances.1 instances.2).foldl (disposeOne env) st) s

/-- The world after `Dispose()` was invoked on the instances of `visited`, in turn. -/
def disposeAll {W : Type} (env : Env W) (visited : List Measurement) (w : W) : W :=
  visited.foldl (fun w' x => env.dispose x w') w

/-! ## Sequences of calls -/

/-- One `Execute` call: method name, identifier and params. -/
structure Call where
  methodName : String
  identifier : String
  params : ParamMap
deriving DecidableEq, Repr

/-- Sequential `Execute` calls, in order; the returned errors are dropped. -/
def runExecutes {W : Type} (env : Env W) : List Call → State W → State W
  | [], s => s
  | c :: cs, s => runExecutes env cs (Execute env c.methodName c.identifier c.params s).2

/-- The batch of summaries the instance returns in one `Execute` call; the empty batch
when the call fails before reaching an instance. -/
def callBatch {W : Type} (env : Env W) (c : Call) (s : State W) : List Summary :=
  match getMeasurementInstance env c.methodName c.identifier s with
  | (Except.error _, _) => []
  | (Except.ok measurementInstance, s1) =>
    (env.execute measurementInstance (mkConfig s1.mm c.identifier c.params) s1.world).1.1

/-- The batches `S1, ..., Sn` of sequential `Execute` calls, in call order. -/
def callBatches {W : Type} (env : Env W) : List Call → State W → List (List Summary)
  | [], _ => []
  | c :: cs, s =>
    callBatch env c s :: callBatches env cs (Execute env c.methodName c.identifier c.params s).2

/-- The states a manager can be in: created by `CreateMeasurementManager`, then driven by
`Execute`, `GetSummaries` and `Dispose`, while the world may change between calls. -/
inductive Reachable {W : Type} (env : Env W) : State W → Prop where
  | create (f : Framework) (clusterConfig templateProvider : Ptr) (w : W) :
      Reachable env (initState f clusterConfig templateProvider w)
  | execute (methodName identifier : String) (params : ParamMap) (s : State W) :
      Reachable env s → Reachable env (Execute env methodName identifier params s).2
  | getSummaries (s : State W) : Reachable env s → Reachable env (GetSummaries s).2
  | dispose (order : RangeOrder) (s : State W) :
      Reachable env s → Reachable env (Dispose env order s)
  | world (s : State W) (w : W) : Reachable env s → Reachable env (s.setWorld w)

/-! ## Reading the trace -/

/-- The events logged after the first `n`. -/
def newEvents (n : Nat) (t : List Event) : List Event := t.drop n

/-- Whether the event is a call to the factory. -/
def Event.isCreate : Event → Bool
  | Event.createMeasurement _ => true
  | _ => false

/-- The instance and the config of an `execute` event. -/
def Event.executeArgs : Event → Option (Measurement × MeasurementConfig)
  | Event.execute i c => some (i, c)
  | _ => none

/-- The instance an `execute` event ran on. -/
def Event.executedOn : Event → Option Measurement
  | Event.execute i _ => some i
  | _ => none

/-- Whether the mutex is held after the events of `t`, starting from `held`. -/
def lockHeld (held : Bool) : List Event → Bool
  | [] => held
  | Event.lock :: t => lockHeld true t
  | Event.unlock :: t => lockHeld false t
  | _ :: t => lockHeld held t

/-! ## A concrete environment -/

/-- A sample registry.  The world counts the constructors run so far.  The method
"latency" builds a new object at address `100 + world`; the constructor of "broken"
fails; every other method name is unknown.  An instance's `Execute` returns one summary
per parameter, and fails when a parameter is named "fail". -/
def exampleEnv : Env Nat :=
  { createFuncs := fun methodName =>
      if methodName = "latency" then some fun w => (Except.ok (100 + w), w + 1)
      else if methodName = "broken" then some fun w => (Except.error "cannot build", w + 1)
      else none
    unknownMethod := fun methodName => "unknown measurement method " ++ methodName
    execute := fun _ config w =>
      ((config.Params.map fun kv => Summary.mk kv.1 kv.2,
        if (mapLookup "fail" config.Params).isSome then some "measurement failed" else none), w)
    dispose := fun _ w => w }

/-- A manager fresh from `CreateMeasurementManager`, no constructor run yet. -/
def exampleInit : State Nat := initState { clientSets := 1, dynamicClients := 2 } 3 4 0

/-- What a collaborator of the recording environment has been asked to do. -/
inductive Seen where
  | built (methodName : String)
  | executed (inst : Measurement) (config : MeasurementConfig)
  | disposed (inst : Measurement)
deriving DecidableEq, Repr

/-- A sample environment whose world is the list of the requests its collaborators have
received, in order: every constructor run, every `Execute(config)` and every `Dispose()`
on an instance adds its entry.  Methods and results are those of `exampleEnv`; a new
object gets the address `100 + ` the length of the world. -/
def recordingEnv : Env (List Seen) :=
  { createFuncs := fun methodName =>
      if methodName = "latency" then
        some fun w => (Except.ok (100 + w.length), w ++ [Seen.built methodName])
      else if methodName = "broken" then
        some fun w => (Except.error "cannot build", w ++ [Seen.built methodName])
      else none
    unknownMethod := fun methodName => "unknown measurement method " ++ methodName
    execute := fun inst config w =>
      ((config.Params.map fun kv => Summary.mk kv.1 kv.2,
        if (mapLookup "fail" config.Params).isSome then some "measurement failed" else none),
       w ++ [Seen.executed inst config])
    dispose := fun inst w => w ++ [Seen.disposed inst] }

/-- A manager fresh from `CreateMeasurementManager` in the recording environment. -/
def recordingInit : State (List Seen) :=
  initState { clientSets := 1, dynamicClients := 2 } 3 4 []

/-- The recording manager after three calls: two "latency" instances under different
identifiers, and a failed construction. -/
def recordingCached : State (List Seen) :=
  runExecutes recordingEnv
    [Call.mk "latency" "podA" [("threshold", "100")],
     Call.mk "latency" "podB" [],
     Call.mk "broken" "podA" []] recordingInit

/-! ## Sequences of operations -/

/-- One call of a public operation of the manager. -/
inductive Op where
  | execute (c : Call)
  | getSummaries
  | dispose (order : RangeOrder)

/-- The state one operation leaves; returned values are dropped. -/
def applyOp {W : Type} (env : Env W) : Op → State W → State W
  | Op.execute c, s => (Execute env c.methodName c.identifier c.params s).2
  | Op.getSummaries, s => (GetSummaries s).2
  | Op.dispose order, s => Dispose env order s

/-- Sequential calls of the public operations, in order. -/
def runOps {W : Type} (env : Env W) : List Op → State W → State W
  | [], s => s
  | o :: os, s => runOps env os (applyOp env o s)

/-! ## Go maps: reads after writes -/

theorem mapLookup_mapInsert_self {β : Type} (k : String) (v : β) (l : List (String × β)) :
    mapLookup k (mapInsert k v l) = some v := by
  induction l with
  | nil => simp [mapInsert, mapLookup]
  | cons e rest ih =>
    obtain ⟨k', v'⟩ := e
    by_cases h : k = k'
    · simp [mapInsert, mapLookup, h]
    · simp [mapInsert, mapLookup, h, ih]

theorem mapLookup_mapInsert_ne {β : Type} {k k' : String} (h : k' ≠ k) (v : β)
    (l : List (String × β)) : mapLookup k' (mapInsert k v l) = mapLookup k' l := by
  induction l with
  | nil => simp [mapInsert, mapLookup, h]
  | cons e rest ih =>
    obtain ⟨k'', v''⟩ := e
    by_cases h1 : k = k''
    · subst h1
      simp [mapInsert, mapLookup, h]
    · by_cases h2 : k' = k''
      · simp [mapInsert, mapLookup, h1, h2]
      · simp [mapInsert, mapLookup, h1, h2, ih]

theorem mapIndex2_ensureMethod (methodName m' i' : String) (m : MeasurementMap) :
    mapIndex2 m' i' (ensureMethod methodName m) = mapIndex2 m' i' m := by
  unfold ensureMethod
  split
  · rename_i hnone
    by_cases h : m' = methodName
    · subst h
      simp [mapIndex2, mapLookup_mapInsert_self, hnone, mapLookup]
    · simp [mapIndex2, mapLookup_mapInsert_ne h]
  · rfl

theorem mapLookup_ensureMethod_ne {methodName m' : String} (h : m' ≠ methodName)
    (m : MeasurementMap) : mapLookup m' (ensureMethod methodName m) = mapLookup m' m := by
  unfold ensureMethod
  split
  · exact mapLookup_mapInsert_ne h _ _
  · rfl

theorem mapLookup_ensureMethod_none {methodName : String} {m : MeasurementMap}
    (h : mapLookup methodName m = none) :
    mapLookup methodName (ensureMethod methodName m) = some [] := by
  simp [ensureMethod, h, mapLookup_mapInsert_self]

theorem mapIndex2_mapInsert2_self (methodName identifier : String) (v : Measurement)
    (m : MeasurementMap) : mapIndex2 methodName identifier (mapInsert2 methodName identifier v m)
      = some v := by
  simp [mapIndex2, mapInsert2, mapLookup_mapInsert_self]

theorem mapGet2_mapInsert2_self (methodName identifier : String) (v : Measurement)
    (m : MeasurementMap) : mapGet2 methodName identifier (mapInsert2 methodName identifier v m)
      = v := by
  simp [mapGet2, mapIndex2_mapInsert2_self]

/-! ## The three paths of `getMeasurementInstance` -/

/-- The pair is cached: the instance is returned, only the mutex is touched. -/
theorem getMeasurementInstance_cached {W : Type} (env : Env W) {methodName identifier : String}
    {s : State W} {inst : Measurement}
    (h : mapIndex2 methodName identifier s.mm.measurements = some inst) :
    getMeasurementInstance env methodName identifier s
      = (Except.ok inst, { s with trace := s.trace ++ [Event.lock, Event.unlock] }) := by
  have hl : ∃ inner, mapLookup methodName s.mm.measurements = some inner := by
    cases hl : mapLookup methodName s.mm.measurements with
    | none => simp [mapIndex2, hl] at h
    | some inner => exact ⟨inner, rfl⟩
  obtain ⟨inner, hl⟩ := hl
  simp [getMeasurementInstance, State.emit, hl, h, mapGet2]

/-- The pair is not cached and the factory fails: the error is returned, the method has
an inner map afterwards, and nothing is stored under the pair. -/
theorem getMeasurementInstance_error {W : Type} (env : Env W) {methodName identifier : String}
    {s : State W} {err : Error} {w : W}
    (h : mapIndex2 methodName identifier s.mm.measurements = none)
    (hc : env.createMeasurement methodName s.world = (Except.error err, w)) :
    getMeasurementInstance env methodName identifier s
      = (Except.error err,
          { (s.setMeasurements (ensureMethod methodName s.mm.measurements)).setWorld w with
            trace := s.trace ++ [Event.lock, Event.createMeasurement methodName, Event.unlock] })
    := by
  have h2 := mapIndex2_ensureMethod methodName methodName identifier s.mm.measurements
  rw [h] at h2
  unfold ensureMethod at h2
  unfold getMeasurementInstance ensureMethod
  cases hl : mapLookup methodName s.mm.measurements with
  | none =>
    simp only [hl] at h2
    simp [State.emit, State.setMeasurements, State.setWorld, hl, h2, hc]
  | some inner =>
    simp [State.emit, State.setMeasurements, State.setWorld, hl, h, hc]

/-- The pair is not cached and the factory succeeds: the new instance is stored under
the pair and returned. -/
theorem getMeasurementInstance_created {W : Type} (env : Env W) {methodName identifier : String}
    {s : State W} {inst : Measurement} {w : W}
    (h : mapIndex2 methodName identifier s.mm.measurements = none)
    (hc : env.createMeasurement methodName s.world = (Except.ok inst, w)) :
    getMeasurementInstance env methodName identifier s
      = (Except.ok inst,
          { (s.setMeasurements (mapInsert2 methodName identifier inst
                (ensureMethod methodName s.mm.measurements))).setWorld w with
            trace := s.trace ++ [Event.lock, Event.createMeasurement methodName, Event.unlock] })
    := by
  have h2 := mapIndex2_ensureMethod methodName methodName identifier s.mm.measurements
  rw [h] at h2
  unfold ensureMethod at h2
  unfold getMeasurementInstance ensureMethod
  cases hl : mapLookup methodName s.mm.measurements with
  | none =>
    simp only [hl] at h2
    simp [State.emit, State.setMeasurements, State.setWorld, hl, h2, hc,
      mapGet2_mapInsert2_self]
  | some inner =>
    simp [State.emit, State.setMeasurements, State.setWorld, hl, h, hc,
      mapGet2_mapInsert2_self]

/-! ## The three paths of `Execute` -/

/-- Reuse of a cached instance. -/
theorem Execute_cached {W : Type} (env : Env W) {methodName identifier : String}
    (params : ParamMap) {s : State W} {inst : Measurement}
    (h : mapIndex2 methodName identifier s.mm.measurements = some inst) :
    Execute env methodName identifier params s
      = ((env.execute inst (mkConfig s.mm identifier params) s.world).1.2,
          { mm := { s.mm with summaries := s.mm.summaries
                      ++ (env.execute inst (mkConfig s.mm identifier params) s.world).1.1 }
            world := (env.execute inst (mkConfig s.mm identifier params) s.world).2
            trace := s.trace ++ [Event.lock, Event.unlock,
              Event.execute inst (mkConfig s.mm identifier params),
              Event.appendSummaries
                (env.execute inst (mkConfig s.mm identifier params) s.world).1.1] }) := by
  unfold Execute
  rw [getMeasurementInstance_cached env h]
  simp [State.emit, State.setWorld, State.setSummaries]

/-- Failure of the factory. -/
theorem Execute_error {W : Type} (env : Env W) {methodName identifier : String}
    (params : ParamMap) {s : State W} {err : Error} {w : W}
    (h : mapIndex2 methodName identifier s.mm.measurements = none)
    (hc : env.createMeasurement methodName s.world = (Except.error err, w)) :
    Execute env methodName identifier params s
      = (some err,
          { (s.setMeasurements (ensureMethod methodName s.mm.measurements)).setWorld w with
            trace := s.trace ++ [Event.lock, Event.createMeasurement methodName, Event.unlock] })
    := by
  unfold Execute
  rw [getMeasurementInstance_error env h hc]

/-- First use of a pair, the factory succeeding. -/
theorem Execute_created {W : Type} (env : Env W) {methodName identifier : String}
    (params : ParamMap) {s : State W} {inst : Measurement} {w : W}
    (h : mapIndex2 methodName identifier s.mm.measurements = none)
    (hc : env.createMeasurement methodName s.world = (Except.ok inst, w)) :
    Execute env methodName identifier params s
      = ((env.execute inst (mkConfig s.mm identifier params) w).1.2,
          { mm := { s.mm with
                      measurements := mapInsert2 methodName identifier inst
                        (ensureMethod methodName s.mm.measurements)
                      summaries := s.mm.summaries
                        ++ (env.execute inst (mkConfig s.mm identifier params) w).1.1 }
            world := (env.execute inst (mkConfig s.mm identifier params) w).2
            trace := s.trace ++ [Event.lock, Event.createMeasurement methodName, Event.unlock,
              Event.execute inst (mkConfig s.mm identifier params),
              Event.appendSummaries
                (env.execute inst (mkConfig s.mm identifier params) w).1.1] }) := by
  unfold Execute
  rw [getMeasurementInstance_created env h hc]
  simp [State.emit, State.setWorld, State.setSummaries, State.setMeasurements, mkConfig]

/-- What a resolved instance tells about the state before the call: either the pair
was cached, or the factory built the instance. -/
theorem getMeasurementInstance_ok_cases {W : Type} (env : Env W) {methodName identifier : String}
    {s s1 : State W} {inst : Measurement}
    (h : getMeasurementInstance env methodName identifier s = (Except.ok inst, s1)) :
    mapIndex2 methodName identifier s.mm.measurements = some inst ∨
    (mapIndex2 methodName identifier s.mm.measurements = none ∧
      ∃ w, env.createMeasurement methodName s.world = (Except.ok inst, w)) := by
  cases hi : mapIndex2 methodName identifier s.mm.measurements with
  | some inst' =>
    rw [getMeasurementInstance_cached env hi] at h
    simp only [Prod.mk.injEq, Except.ok.injEq] at h
    left
    rw [h.1]
  | none =>
    right
    refine ⟨rfl, ?_⟩
    rcases hc : env.createMeasurement methodName s.world with ⟨r, w⟩
    cases r with
    | error err =>
      rw [getMeasurementInstance_error env hi hc] at h
      simp at h
    | ok inst' =>
      rw [getMeasurementInstance_created env hi hc] at h
      simp only [Prod.mk.injEq, Except.ok.injEq] at h
      exact ⟨w, by rw [h.1]⟩

/-- Lines 84-98 touch neither the accumulator nor the injected references, and the
world is the one the factory left. -/
theorem getMeasurementInstance_frame {W : Type} (env : Env W) (methodName identifier : String)
    (s : State W) :
    (getMeasurementInstance env methodName identifier s).2.mm
      = { s.mm with measurements :=
            (getMeasurementInstance env methodName identifier s).2.mm.measurements } := by
  cases hi : mapIndex2 methodName identifier s.mm.measurements with
  | some inst => rw [getMeasurementInstance_cached env hi]
  | none =>
    rcases hc : env.createMeasurement methodName s.world with ⟨r, w⟩
    cases r with
    | error err => rw [getMeasurementInstance_error env hi hc]; rfl
    | ok inst => rw [getMeasurementInstance_created env hi hc]; rfl

theorem Execute_summaries {W : Type} (env : Env W) (c : Call) (s : State W) :
    (Execute env c.methodName c.identifier c.params s).2.mm.summaries
      = s.mm.summaries ++ callBatch env c s := by
  unfold callBatch
  cases hi : mapIndex2 c.methodName c.identifier s.mm.measurements with
  | some inst =>
    rw [Execute_cached env c.params hi, getMeasurementInstance_cached env hi]
  | none =>
    rcases hc : env.createMeasurement c.methodName s.world with ⟨r, w⟩
    cases r with
    | error err =>
      rw [Execute_error env c.params hi hc, getMeasurementInstance_error env hi hc]
      simp [State.setMeasurements, State.setWorld]
    | ok inst =>
      rw [Execute_created env c.params hi hc, getMeasurementInstance_created env hi hc]
      simp [State.setMeasurements, State.setWorld, mkConfig]

theorem runExecutes_summaries {W : Type} (env : Env W) (calls : List Call) (s : State W) :
    (runExecutes env calls s).mm.summaries
      = s.mm.summaries ++ (callBatches env calls s).flatten := by
  induction calls generalizing s with
  | nil => simp [runExecutes, callBatches]
  | cons c cs ih =>
    simp only [runExecutes, callBatches, List.flatten_cons]
    rw [ih, Execute_summaries, List.append_assoc]

theorem callBatches_length {W : Type} (env : Env W) (calls : List Call) (s : State W) :
    (callBatches env calls s).length = calls.length := by
  induction calls generalizing s with
  | nil => rfl
  | cons c cs ih => simp [callBatches, ih]

/-- C1. On a manager fresh from `CreateMeasurementManager`, after any sequence of
sequential `Execute` calls whose instances return the batches S1, ..., Sn (the empty
batch for a call that fails before reaching an instance), `GetSummaries` returns exactly
S1 ++ ... ++ Sn in call order, one batch per call, nothing filtered or deduplicated. -/
theorem GetSummaries_eq_concat_batches {W : Type} (env : Env W) (f : Framework)
    (clusterConfig templateProvider : Ptr) (w : W) (calls : List Call) :
    (GetSummaries (runExecutes env calls (initState f clusterConfig templateProvider w))).1
      = (callBatches env calls (initState f clusterConfig templateProvider w)).flatten ∧
    (callBatches env calls (initState f clusterConfig templateProvider w)).length
      = calls.length := by
  refine ⟨?_, callBatches_length env calls _⟩
  simp [GetSummaries, runExecutes_summaries, initState, CreateMeasurementManager]

/-- C2, counterexample. On a fresh manager the method "unknown-method" is not in the
registry and has no top-level entry; `Execute` returns an error, and afterwards the
method does have a top-level entry, an empty inner map. -/
theorem unknown_method_leaves_inner_map :
    exampleEnv.createFuncs "unknown-method" = none ∧
    mapLookup "unknown-method" exampleInit.mm.measurements = none ∧
    (Execute exampleEnv "unknown-method" "x" [] exampleInit).1.isSome = true ∧
    ¬ (mapLookup "unknown-method"
        (Execute exampleEnv "unknown-method" "x" [] exampleInit).2.mm.measurements = none) :=
  ⟨by simp [exampleEnv], by decide, by decide, by decide⟩

/-- C2, amended. For a method name missing from the registry and without a top-level
entry, `Execute` returns the factory's error; afterwards the method's top-level entry is
an empty inner map, no instance is cached under the method for any identifier, and the
entries of all other methods are as before. -/
theorem Execute_unknown_method {W : Type} (env : Env W) (methodName identifier : String)
    (params : ParamMap) (s : State W)
    (hunknown : env.createFuncs methodName = none)
    (hnone : mapLookup methodName s.mm.measurements = none) :
    (Execute env methodName identifier params s).1 = some (env.unknownMethod methodName) ∧
    mapLookup methodName (Execute env methodName identifier params s).2.mm.measurements
      = some [] ∧
    (∀ i, mapIndex2 methodName i
      (Execute env methodName identifier params s).2.mm.measurements = none) ∧
    (∀ m, m ≠ methodName →
      mapLookup m (Execute env methodName identifier params s).2.mm.measurements
        = mapLookup m s.mm.measurements) := by
  have hi : mapIndex2 methodName identifier s.mm.measurements = none := by
    simp [mapIndex2, hnone]
  have hc : env.createMeasurement methodName s.world
      = (Except.error (env.unknownMethod methodName), s.world) := by
    simp [Env.createMeasurement, hunknown]
  rw [Execute_error env params hi hc]
  refine ⟨rfl, mapLookup_ensureMethod_none hnone, ?_, ?_⟩
  · intro i
    simp [State.setMeasurements, State.setWorld, mapIndex2, mapLookup_ensureMethod_none hnone,
      mapLookup]
  · intro m hm
    exact mapLookup_ensureMethod_ne hm _

theorem Execute_unknown_method_witness :
    (Execute exampleEnv "unknown-method" "x" [] exampleInit).1
      = some (exampleEnv.unknownMethod "unknown-method") ∧
    mapLookup "unknown-method"
      (Execute exampleEnv "unknown-method" "x" [] exampleInit).2.mm.measurements = some [] ∧
    (∀ i, mapIndex2 "unknown-method" i
      (Execute exampleEnv "unknown-method" "x" [] exampleInit).2.mm.measurements = none) ∧
    (∀ m, m ≠ "unknown-method" →
      mapLookup m (Execute exampleEnv "unknown-method" "x" [] exampleInit).2.mm.measurements
        = mapLookup m exampleInit.mm.measurements) :=
  Execute_unknown_method exampleEnv "unknown-method" "x" [] exampleInit
    (by simp [exampleEnv]) (by decide)

/-! ## Repeated calls on one pair -/

theorem newEvents_append (t evs : List Event) : newEvents t.length (t ++ evs) = evs := by
  simp [newEvents]

/-- Calls on a cached pair: no factory call, one instance call each, the cache entry
stays. -/
theorem runExecutes_cached {W : Type} (env : Env W) (methodName identifier : String)
    (inst : Measurement) (ps : List ParamMap) (s : State W)
    (h : mapIndex2 methodName identifier s.mm.measurements = some inst) :
    ∃ evs, (runExecutes env (ps.map (Call.mk methodName identifier)) s).trace = s.trace ++ evs ∧
      evs.filter Event.isCreate = [] ∧
      evs.filterMap Event.executedOn = List.replicate ps.length inst ∧
      mapIndex2 methodName identifier
        (runExecutes env (ps.map (Call.mk methodName identifier)) s).mm.measurements
          = some inst := by
  induction ps generalizing s with
  | nil => exact ⟨[], by simp [runExecutes], rfl, rfl, h⟩
  | cons p ps ih =>
    simp only [List.map_cons, runExecutes]
    have hstep := Execute_cached env p h
    have h' : mapIndex2 methodName identifier
        (Execute env methodName identifier p s).2.mm.measurements = some inst := by
      rw [hstep]
      exact h
    obtain ⟨evs, ht, hcr, hex, hm⟩ := ih _ h'
    refine ⟨[Event.lock, Event.unlock, Event.execute inst (mkConfig s.mm identifier p),
      Event.appendSummaries (env.execute inst (mkConfig s.mm identifier p) s.world).1.1]
        ++ evs, ?_, ?_, ?_, hm⟩
    · rw [ht, hstep, List.append_assoc]
    · simp [List.filter_cons, Event.isCreate, hcr]
    · simp [List.filterMap_cons, Event.executedOn, hex, List.replicate_succ]

/-- Calls on a cached pair: the world goes through the cached instance's `Execute`, once
per call, with the config of that call. -/
theorem runExecutes_cached_world {W : Type} (env : Env W) (methodName identifier : String)
    (inst : Measurement) (ps : List ParamMap) (s : State W)
    (h : mapIndex2 methodName identifier s.mm.measurements = some inst) :
    (runExecutes env (ps.map (Call.mk methodName identifier)) s).world
      = ps.foldl (fun w q => (env.execute inst (mkConfig s.mm identifier q) w).2) s.world := by
  induction ps generalizing s with
  | nil => rfl
  | cons p ps ih =>
    simp only [List.map_cons, runExecutes, List.foldl_cons]
    have hstep := Execute_cached env p h
    have h' : mapIndex2 methodName identifier
        (Execute env methodName identifier p s).2.mm.measurements = some inst := by
      rw [hstep]
      exact h
    rw [ih _ h', hstep]
    rfl

/-- C3. For sequential `Execute` calls that share a (method, identifier) pair not cached
before, the construction succeeding on the first call: the world after all the calls is
the world the one construction left, taken through the `Execute` of the constructed
instance once per call with that call's config, so no further constructor runs and every
call invokes `Execute` on that instance; the instance is the one cached under the pair;
and the log shows exactly one factory call and one instance call per call. -/
theorem single_construction_per_pair {W : Type} (env : Env W) (methodName identifier : String)
    (p : ParamMap) (ps : List ParamMap) (s : State W) (inst : Measurement) (w : W)
    (h : mapIndex2 methodName identifier s.mm.measurements = none)
    (hc : env.createMeasurement methodName s.world = (Except.ok inst, w)) :
    (runExecutes env ((p :: ps).map (Call.mk methodName identifier)) s).world
      = (p :: ps).foldl
          (fun w' q => (env.execute inst (mkConfig s.mm identifier q) w').2) w ∧
    (newEvents s.trace.length
        (runExecutes env ((p :: ps).map (Call.mk methodName identifier)) s).trace).filter
      Event.isCreate = [Event.createMeasurement methodName] ∧
    (newEvents s.trace.length
        (runExecutes env ((p :: ps).map (Call.mk methodName identifier)) s).trace).filterMap
      Event.executedOn = List.replicate (ps.length + 1) inst ∧
    mapIndex2 methodName identifier
      (runExecutes env ((p :: ps).map (Call.mk methodName identifier)) s).mm.measurements
        = some inst := by
  simp only [List.map_cons, runExecutes, List.foldl_cons]
  have hstep := Execute_created env p h hc
  have h' : mapIndex2 methodName identifier
      (Execute env methodName identifier p s).2.mm.measurements = some inst := by
    rw [hstep]
    exact mapIndex2_mapInsert2_self _ _ _ _
  obtain ⟨evs, ht, hcr, hex, hm⟩ :=
    runExecutes_cached env methodName identifier inst ps _ h'
  refine ⟨?_, ?_, ?_, hm⟩
  · rw [runExecutes_cached_world env methodName identifier inst ps _ h', hstep]
    rfl
  · rw [ht, hstep, List.append_assoc, newEvents_append]
    simp [List.filter_cons, Event.isCreate, hcr]
  · rw [ht, hstep, List.append_assoc, newEvents_append]
    simp [List.filterMap_cons, Event.executedOn, hex, List.replicate_succ]

theorem single_construction_per_pair_witness :
    mapIndex2 "latency" "podA" recordingInit.mm.measurements = none ∧
    recordingEnv.createMeasurement "latency" recordingInit.world
      = (Except.ok 100, [Seen.built "latency"]) ∧
    (runExecutes recordingEnv
        (([("threshold", "100")] :: [[("threshold", "200")], []]).map
          (Call.mk "latency" "podA")) recordingInit).world
      = [Seen.built "latency",
          Seen.executed 100 (mkConfig recordingInit.mm "podA" [("threshold", "100")]),
          Seen.executed 100 (mkConfig recordingInit.mm "podA" [("threshold", "200")]),
          Seen.executed 100 (mkConfig recordingInit.mm "podA" [])] ∧
    (runExecutes recordingEnv
        (([("threshold", "100")] :: [[("threshold", "200")], []]).map
          (Call.mk "latency" "podA")) recordingInit).world
      = ([("threshold", "100")] :: [[("threshold", "200")], []]).foldl
          (fun w' q => (recordingEnv.execute 100 (mkConfig recordingInit.mm "podA" q) w').2)
          [Seen.built "latency"] ∧
    (newEvents recordingInit.trace.length
        (runExecutes recordingEnv
          (([("threshold", "100")] :: [[("threshold", "200")], []]).map
            (Call.mk "latency" "podA")) recordingInit).trace).filter
      Event.isCreate = [Event.createMeasurement "latency"] ∧
    (newEvents recordingInit.trace.length
        (runExecutes recordingEnv
          (([("threshold", "100")] :: [[("threshold", "200")], []]).map
            (Call.mk "latency" "podA")) recordingInit).trace).filterMap
      Event.executedOn = List.replicate 3 100 ∧
    mapIndex2 "latency" "podA"
      (runExecutes recordingEnv
        (([("threshold", "100")] :: [[("threshold", "200")], []]).map
          (Call.mk "latency" "podA")) recordingInit).mm.measurements = some 100 :=
  ⟨by decide, by rfl, by decide,
    single_construction_per_pair recordingEnv "latency" "podA" [("threshold", "100")]
      [[("threshold", "200")], []] recordingInit 100 [Seen.built "latency"]
      (by decide) (by rfl)⟩

/-- C4. When the instance is resolved and its `Execute` returns the batch S with a
non-nil error e, the accumulator afterwards is the previous accumulator followed by S,
and `Execute` returns exactly e. -/
theorem Execute_error_keeps_partial_results {W : Type} (env : Env W)
    (methodName identifier : String) (params : ParamMap) (s s1 : State W) (inst : Measurement)
    (batch : List Summary) (e : Error) (w : W)
    (hres : getMeasurementInstance env methodName identifier s = (Except.ok inst, s1))
    (hexec : env.execute inst (mkConfig s.mm identifier params) s1.world
      = ((batch, some e), w)) :
    (Execute env methodName identifier params s).1 = some e ∧
    (Execute env methodName identifier params s).2.mm.summaries = s.mm.summaries ++ batch := by
  rcases getMeasurementInstance_ok_cases env hres with hi | ⟨hi, w1, hc⟩
  · rw [getMeasurementInstance_cached env hi] at hres
    simp only [Prod.mk.injEq, true_and] at hres
    subst hres
    rw [Execute_cached env params hi]
    simp only at hexec
    simp [hexec]
  · rw [getMeasurementInstance_created env hi hc] at hres
    simp only [Prod.mk.injEq, true_and] at hres
    subst hres
    rw [Execute_created env params hi hc]
    simp only [State.setWorld, State.setMeasurements] at hexec
    simp [hexec]

theorem Execute_error_keeps_partial_results_witness :
    getMeasurementInstance exampleEnv "latency" "podA" exampleInit
      = (Except.ok 100, (getMeasurementInstance exampleEnv "latency" "podA" exampleInit).2) ∧
    exampleEnv.execute 100 (mkConfig exampleInit.mm "podA" [("p50", "12ms"), ("fail", "now")])
        (getMeasurementInstance exampleEnv "latency" "podA" exampleInit).2.world
      = (([⟨"p50", "12ms"⟩, ⟨"fail", "now"⟩], some "measurement failed"), 1) ∧
    (Execute exampleEnv "latency" "podA" [("p50", "12ms"), ("fail", "now")] exampleInit).1
      = some "measurement failed" ∧
    (Execute exampleEnv "latency" "podA" [("p50", "12ms"), ("fail", "now")]
        exampleInit).2.mm.summaries
      = exampleInit.mm.summaries ++ [⟨"p50", "12ms"⟩, ⟨"fail", "now"⟩] :=
  ⟨by rfl, by rfl,
    Execute_error_keeps_partial_results exampleEnv "latency" "podA"
      [("p50", "12ms"), ("fail", "now")] exampleInit _ 100 _ "measurement failed" 1
      (by rfl) (by rfl)⟩

theorem foldl_disposeOne {W : Type} (env : Env W) (instances : InstanceMap) (s : State W) :
    (instances.foldl (disposeOne env) s).mm = s.mm ∧
    (instances.foldl (disposeOne env) s).trace
      = s.trace ++ (instances.map Prod.snd).map Event.dispose ∧
    (instances.foldl (disposeOne env) s).world
      = disposeAll env (instances.map Prod.snd) s.world := by
  induction instances generalizing s with
  | nil => simp [disposeAll]
  | cons x rest ih =>
    simp only [List.foldl_cons, List.map_cons]
    obtain ⟨h1, h2, h3⟩ := ih (disposeOne env s x)
    refine ⟨by rw [h1]; rfl, ?_, ?_⟩
    · rw [h2]
      simp [disposeOne, State.emit, State.setWorld]
    · rw [h3]
      simp [disposeOne, State.emit, State.setWorld, disposeAll]

theorem disposeAll_append {W : Type} (env : Env W) (l1 l2 : List Measurement) (w : W) :
    disposeAll env (l1 ++ l2) w = disposeAll env l2 (disposeAll env l1 w) := by
  simp [disposeAll, List.foldl_append]

theorem foldl_dispose {W : Type} (env : Env W) (inner : String → InstanceMap → InstanceMap)
    (m : MeasurementMap) (s : State W) :
    (m.foldl (fun st instances => (inner instances.1 instances.2).foldl (disposeOne env) st)
      s).mm = s.mm ∧
    (m.foldl (fun st instances => (inner instances.1 instances.2).foldl (disposeOne env) st)
      s).trace
      = s.trace ++ (m.flatMap fun e => (inner e.1 e.2).map Prod.snd).map Event.dispose ∧
    (m.foldl (fun st instances => (inner instances.1 instances.2).foldl (disposeOne env) st)
      s).world
      = disposeAll env (m.flatMap fun e => (inner e.1 e.2).map Prod.snd) s.world := by
  induction m generalizing s with
  | nil => simp [disposeAll]
  | cons e rest ih =>
    simp only [List.foldl_cons]
    obtain ⟨h1, h2, h3⟩ := ih ((inner e.1 e.2).foldl (disposeOne env) s)
    obtain ⟨g1, g2, g3⟩ := foldl_disposeOne env (inner e.1 e.2) s
    refine ⟨by rw [h1, g1], ?_, ?_⟩
    · rw [h2, g2]
      simp [List.flatMap_cons, List.map_append]
    · rw [h3, g3]
      simp [List.flatMap_cons, disposeAll_append]

/-- What `Dispose` does: nothing in the manager changes, and `Dispose()` is invoked on the
visited instances in turn, each invocation logged. -/
theorem Dispose_spec {W : Type} (env : Env W) (order : RangeOrder) (s : State W) :
    (Dispose env order s).mm = s.mm ∧
    (Dispose env order s).trace
      = s.trace ++ (visitedInstances order s.mm.measurements).map Event.dispose ∧
    (Dispose env order s).world
      = disposeAll env (visitedInstances order s.mm.measurements) s.world :=
  foldl_dispose env order.instances (order.methods s.mm.measurements) s

/-- Whatever the iteration order, the visited instances are the stored ones, each as
often as it is stored. -/
theorem visitedInstances_perm (order : RangeOrder) (m : MeasurementMap) :
    (visitedInstances order m).Perm (cachedInstances m) := by
  unfold visitedInstances cachedInstances
  refine List.Perm.trans ?_ ((order.methods_perm m).flatMap_right _)
  apply List.Perm.flatMap_left
  intro e _
  exact (order.instances_perm e.1 e.2).map _

theorem mem_of_mapLookup {β : Type} {k : String} {v : β} {l : List (String × β)}
    (h : mapLookup k l = some v) : (k, v) ∈ l := by
  induction l with
  | nil => simp [mapLookup] at h
  | cons e rest ih =>
    obtain ⟨k', v'⟩ := e
    by_cases hk : k = k'
    · simp [mapLookup, hk] at h
      simp [hk, h]
    · simp [mapLookup, hk] at h
      exact List.mem_cons_of_mem _ (ih h)

theorem mapLookup_of_mem {β : Type} {l : List (String × β)} (hn : (l.map Prod.fst).Nodup)
    {e : String × β} (he : e ∈ l) : mapLookup e.1 l = some e.2 := by
  induction l with
  | nil => simp at he
  | cons e' rest ih =>
    obtain ⟨k', v'⟩ := e'
    simp only [List.map_cons, List.nodup_cons] at hn
    rcases List.mem_cons.mp he with rfl | hmem
    · simp [mapLookup]
    · have hne : e.1 ≠ k' := by
        intro heq
        exact hn.1 (heq ▸ List.mem_map_of_mem Prod.fst hmem)
      simp [mapLookup, hne, ih hn.2 hmem]

theorem mem_cachedPairs {m : MeasurementMap} {a b : String} :
    (a, b) ∈ cachedPairs m ↔ ∃ inner, (a, inner) ∈ m ∧ ∃ v, (b, v) ∈ inner := by
  simp only [cachedPairs, List.mem_flatMap, List.mem_map, Prod.mk.injEq, Prod.exists]
  constructor
  · rintro ⟨k, inner, hmem, i, v, hi, rfl, rfl⟩
    exact ⟨inner, hmem, v, hi⟩
  · rintro ⟨inner, hmem, v, hi⟩
    exact ⟨a, inner, hmem, b, v, hi, rfl, rfl⟩

theorem mem_cachedPairs_iff {m : MeasurementMap} (hwf : MapWF m) (a b : String) :
    (a, b) ∈ cachedPairs m ↔ (mapIndex2 a b m).isSome = true := by
  rw [mem_cachedPairs]
  constructor
  · rintro ⟨inner, hmem, v, hi⟩
    have h1 := mapLookup_of_mem hwf.1 hmem
    have h2 := mapLookup_of_mem (hwf.2 _ hmem) hi
    simp only at h1 h2
    simp [mapIndex2, h1, h2]
  · intro h
    cases h1 : mapLookup a m with
    | none => simp [mapIndex2, h1] at h
    | some inner =>
      cases h2 : mapLookup b inner with
      | none => simp [mapIndex2, h1, h2] at h
      | some v => exact ⟨inner, mem_of_mapLookup h1, v, mem_of_mapLookup h2⟩

theorem cachedPairs_nodup {m : MeasurementMap} (hwf : MapWF m) : (cachedPairs m).Nodup := by
  induction m with
  | nil => simp [cachedPairs]
  | cons e rest ih =>
    obtain ⟨hk, hin⟩ := hwf
    simp only [List.map_cons, List.nodup_cons] at hk
    have hrest : MapWF rest := ⟨hk.2, fun x hx => hin x (List.mem_cons_of_mem _ hx)⟩
    have hsplit : cachedPairs (e :: rest)
        = (e.2.map fun x => (e.1, x.1)) ++ cachedPairs rest := by
      simp [cachedPairs, List.flatMap_cons]
    rw [hsplit, List.nodup_append]
    refine ⟨?_, ih hrest, ?_⟩
    · have hmap : (e.2.map fun x => (e.1, x.1)) = (e.2.map Prod.fst).map (Prod.mk e.1) := by
        simp [List.map_map, Function.comp_def]
      rw [hmap]
      exact (hin e (List.mem_cons_self _ _)).map (fun _ _ h => (Prod.mk.inj h).2)
    · intro p hp1 hp2
      obtain ⟨a, b⟩ := p
      simp only [List.mem_map, Prod.mk.injEq] at hp1
      obtain ⟨x, -, rfl, -⟩ := hp1
      obtain ⟨inner, hmem, -⟩ := mem_cachedPairs.mp hp2
      exact hk.1 (List.mem_map.mpr ⟨(e.1, inner), hmem, rfl⟩)

/-- Reading every stored pair back from a well-formed map yields the stored instances. -/
theorem filterMap_cachedPairs {m : MeasurementMap} (hwf : MapWF m) :
    (cachedPairs m).filterMap (fun p => mapIndex2 p.1 p.2 m) = cachedInstances m := by
  have key : ∀ l : MeasurementMap, (∀ e ∈ l, e ∈ m) →
      (cachedPairs l).filterMap (fun p => mapIndex2 p.1 p.2 m) = cachedInstances l := by
    intro l
    induction l with
    | nil => intro _; simp [cachedPairs, cachedInstances]
    | cons e rest ih =>
      intro hsub
      have he : e ∈ m := hsub e (List.mem_cons_self _ _)
      have hl := mapLookup_of_mem hwf.1 he
      have hinner : ∀ x ∈ e.2, mapIndex2 e.1 x.1 m = some x.2 := by
        intro x hx
        have := mapLookup_of_mem (hwf.2 e he) hx
        simp [mapIndex2, hl, this]
      have hhead : (e.2.map fun x => (e.1, x.1)).filterMap (fun p => mapIndex2 p.1 p.2 m)
          = e.2.map Prod.snd := by
        rw [List.filterMap_map]
        have : ∀ l' : InstanceMap, (∀ x ∈ l', x ∈ e.2) →
            l'.filterMap ((fun p => mapIndex2 p.1 p.2 m) ∘ fun x => (e.1, x.1))
              = l'.map Prod.snd := by
          intro l'
          induction l' with
          | nil => intro _; rfl
          | cons x xs ihx =>
            intro hs
            have hx := hinner x (hs x (List.mem_cons_self _ _))
            simp only [List.filterMap_cons, Function.comp_apply, hx, List.map_cons]
            rw [ihx fun y hy => hs y (List.mem_cons_of_mem _ hy)]
        exact this e.2 fun _ h => h
      have hsplit : cachedPairs (e :: rest)
          = (e.2.map fun x => (e.1, x.1)) ++ cachedPairs rest := by
        simp [cachedPairs, List.flatMap_cons]
      have hsplit2 : cachedInstances (e :: rest) = e.2.map Prod.snd ++ cachedInstances rest := by
        simp [cachedInstances, List.flatMap_cons]
      rw [hsplit, hsplit2, List.filterMap_append, hhead,
        ih fun x hx => hsub x (List.mem_cons_of_mem _ hx)]
  exact key m fun _ h => h

/-- C6. In every manager state (the cache a well-formed map) and whatever order the two
loops take, `Dispose` invokes `Dispose` once on the instance cached under each
(method, identifier) pair and on nothing else: the world it leaves is the one obtained by
invoking `Dispose()` in turn on a list of instances that is, as a multiset, the instances
read from the cache at each cached pair, each pair counted once; the manager itself is
unchanged and the logged events are these invocations. -/
theorem Dispose_each_cached_instance_once {W : Type} (env : Env W) (order : RangeOrder)
    (s : State W) (hwf : MapWF s.mm.measurements) :
    ∃ pairs : List (String × String),
      pairs.Nodup ∧
      (∀ methodName identifier, (methodName, identifier) ∈ pairs ↔
        (mapIndex2 methodName identifier s.mm.measurements).isSome = true) ∧
      ∃ visited : List Measurement,
        Multiset.ofList visited = Multiset.ofList
          (pairs.filterMap fun p => mapIndex2 p.1 p.2 s.mm.measurements) ∧
        (Dispose env order s).world = visited.foldl (fun w x => env.dispose x w) s.world ∧
        (Dispose env order s).mm = s.mm ∧
        (Dispose env order s).trace = s.trace ++ visited.map Event.dispose := by
  obtain ⟨hmm, htr, hw⟩ := Dispose_spec env order s
  refine ⟨cachedPairs s.mm.measurements, cachedPairs_nodup hwf,
    fun a b => mem_cachedPairs_iff hwf a b,
    visitedInstances order s.mm.measurements, ?_, hw, hmm, htr⟩
  rw [filterMap_cachedPairs hwf]
  exact Multiset.coe_eq_coe.mpr (visitedInstances_perm order s.mm.measurements)

theorem Dispose_each_cached_instance_once_witness :
    MapWF recordingCached.mm.measurements ∧
    (Dispose recordingEnv reverseOrder recordingCached).world
      = recordingCached.world ++ [Seen.disposed 102, Seen.disposed 100] ∧
    ∃ pairs : List (String × String),
      pairs.Nodup ∧
      (∀ methodName identifier, (methodName, identifier) ∈ pairs ↔
        (mapIndex2 methodName identifier recordingCached.mm.measurements).isSome = true) ∧
      ∃ visited : List Measurement,
        Multiset.ofList visited = Multiset.ofList
          (pairs.filterMap fun p => mapIndex2 p.1 p.2 recordingCached.mm.measurements) ∧
        (Dispose recordingEnv reverseOrder recordingCached).world
          = visited.foldl (fun w x => recordingEnv.dispose x w) recordingCached.world ∧
        (Dispose recordingEnv reverseOrder recordingCached).mm = recordingCached.mm ∧
        (Dispose recordingEnv reverseOrder recordingCached).trace
          = recordingCached.trace ++ visited.map Event.dispose :=
  ⟨by decide, by decide,
    Dispose_each_cached_instance_once recordingEnv reverseOrder recordingCached (by decide)⟩

/-! ## Reachable states -/

/-- C8. The accumulator is append-only: before any `Execute` call it is a prefix of what
it is after the call, whatever the outcome, and `GetSummaries` and `Dispose` leave it
unchanged. -/
theorem summaries_append_only {W : Type} (env : Env W) (methodName identifier : String)
    (params : ParamMap) (order : RangeOrder) (s : State W) :
    s.mm.summaries <+: (Execute env methodName identifier params s).2.mm.summaries ∧
    (GetSummaries s).2.mm.summaries = s.mm.summaries ∧
    (Dispose env order s).mm.summaries = s.mm.summaries := by
  refine ⟨?_, rfl, by rw [(Dispose_spec env order s).1]⟩
  have h := Execute_summaries env (Call.mk methodName identifier params) s
  simp only at h
  rw [h]
  exact List.prefix_append _ _

/-- C9. When `Execute(method, identifier, params)` resolves an instance, what the call
returns, the world it leaves and the batch it appends are those of that instance's
`Execute` applied to a config whose Identifier and Params are those of the call and whose
four references are the manager's own, in the world the lookup-or-create step left; the
log shows that one invocation.  A later call on the same pair does the same with the same
instance and the later call's params. -/
theorem Execute_passes_call_config {W : Type} (env : Env W) (methodName identifier : String)
    (params : ParamMap) (s s1 : State W) (inst : Measurement)
    (hres : getMeasurementInstance env methodName identifier s = (Except.ok inst, s1)) :
    (Execute env methodName identifier params s).1
      = (env.execute inst
        { ClientSets := s.mm.clientSets
          DynamicClients := s.mm.dynamicClients
          ClusterConfig := s.mm.clusterConfig
          Params := params
          TemplateProvider := s.mm.templateProvider
          Identifier := identifier }
        s1.world).1.2 ∧
    (Execute env methodName identifier params s).2.world
      = (env.execute inst
        { ClientSets := s.mm.clientSets
          DynamicClients := s.mm.dynamicClients
          ClusterConfig := s.mm.clusterConfig
          Params := params
          TemplateProvider := s.mm.templateProvider
          Identifier := identifier }
        s1.world).2 ∧
    (Execute env methodName identifier params s).2.mm.summaries
      = s.mm.summaries ++ (env.execute inst
        { ClientSets := s.mm.clientSets
          DynamicClients := s.mm.dynamicClients
          ClusterConfig := s.mm.clusterConfig
          Params := params
          TemplateProvider := s.mm.templateProvider
          Identifier := identifier }
        s1.world).1.1 ∧
    (newEvents s.trace.length (Execute env methodName identifier params s).2.trace).filterMap Event.executeArgs
      = [(inst,
        { ClientSets := s.mm.clientSets
          DynamicClients := s.mm.dynamicClients
          ClusterConfig := s.mm.clusterConfig
          Params := params
          TemplateProvider := s.mm.templateProvider
          Identifier := identifier })] ∧
    ∀ later : ParamMap,
    (Execute env methodName identifier later (Execute env methodName identifier params s).2).1
      = (env.execute inst
        { ClientSets := s.mm.clientSets
          DynamicClients := s.mm.dynamicClients
          ClusterConfig := s.mm.clusterConfig
          Params := later
          TemplateProvider := s.mm.templateProvider
          Identifier := identifier }
        (Execute env methodName identifier params s).2.world).1.2 ∧
    (Execute env methodName identifier later (Execute env methodName identifier params s).2).2.world
      = (env.execute inst
        { ClientSets := s.mm.clientSets
          DynamicClients := s.mm.dynamicClients
          ClusterConfig := s.mm.clusterConfig
          Params := later
          TemplateProvider := s.mm.templateProvider
          Identifier := identifier }
        (Execute env methodName identifier params s).2.world).2 ∧
    (Execute env methodName identifier later (Execute env methodName identifier params s).2).2.mm.summaries
      = (Execute env methodName identifier params s).2.mm.summaries ++ (env.execute inst
        { ClientSets := s.mm.clientSets
          DynamicClients := s.mm.dynamicClients
          ClusterConfig := s.mm.clusterConfig
          Params := later
          TemplateProvider := s.mm.templateProvider
          Identifier := identifier }
        (Execute env methodName identifier params s).2.world).1.1 ∧
    (newEvents (Execute env methodName identifier params s).2.trace.length (Execute env methodName identifier later (Execute env methodName identifier params s).2).2.trace).filterMap Event.executeArgs
      = [(inst,
        { ClientSets := s.mm.clientSets
          DynamicClients := s.mm.dynamicClients
          ClusterConfig := s.mm.clusterConfig
          Params := later
          TemplateProvider := s.mm.templateProvider
          Identifier := identifier })] := by
  rcases getMeasurementInstance_ok_cases env hres with hi | ⟨hi, w1, hc⟩
  · have hstep := Execute_cached env params hi
    have h' : mapIndex2 methodName identifier
        (Execute env methodName identifier params s).2.mm.measurements = some inst := by
      rw [hstep]
      exact hi
    rw [getMeasurementInstance_cached env hi] at hres
    simp only [Prod.mk.injEq, true_and] at hres
    subst hres
    refine ⟨?_, ?_, ?_, ?_, ?_⟩
    · rw [hstep]; rfl
    · rw [hstep]; rfl
    · rw [hstep]; rfl
    · rw [hstep, newEvents_append]
      simp [Event.executeArgs, mkConfig]
    · intro later
      rw [Execute_cached env later h', newEvents_append]
      simp only [List.filterMap_cons, Event.executeArgs, List.filterMap_nil]
      rw [hstep]
      exact ⟨rfl, rfl, rfl, rfl⟩
  · have hstep := Execute_created env params hi hc
    have h' : mapIndex2 methodName identifier
        (Execute env methodName identifier params s).2.mm.measurements = some inst := by
      rw [hstep]
      exact mapIndex2_mapInsert2_self _ _ _ _
    rw [getMeasurementInstance_created env hi hc] at hres
    simp only [Prod.mk.injEq, true_and] at hres
    subst hres
    refine ⟨?_, ?_, ?_, ?_, ?_⟩
    · rw [hstep]; rfl
    · rw [hstep]; rfl
    · rw [hstep]; rfl
    · rw [hstep, newEvents_append]
      simp [Event.executeArgs, mkConfig]
    · intro later
      rw [Execute_cached env later h', newEvents_append]
      simp only [List.filterMap_cons, Event.executeArgs, List.filterMap_nil]
      rw [hstep]
      exact ⟨rfl, rfl, rfl, rfl⟩

theorem Execute_passes_call_config_witness :
    getMeasurementInstance recordingEnv "latency" "podA" recordingInit
      = (Except.ok 100,
          (getMeasurementInstance recordingEnv "latency" "podA" recordingInit).2) ∧
    (Execute recordingEnv "latency" "podA" [("threshold", "200")]
        (Execute recordingEnv "latency" "podA" [("threshold", "100")] recordingInit).2).2.world
      = [Seen.built "latency",
          Seen.executed 100 (mkConfig recordingInit.mm "podA" [("threshold", "100")]),
          Seen.executed 100 (mkConfig recordingInit.mm "podA" [("threshold", "200")])] ∧
    (Execute recordingEnv "latency" "podA" [("threshold", "100")] recordingInit).1
      = (recordingEnv.execute 100
        { ClientSets := recordingInit.mm.clientSets
          DynamicClients := recordingInit.mm.dynamicClients
          ClusterConfig := recordingInit.mm.clusterConfig
          Params := [("threshold", "100")]
          TemplateProvider := recordingInit.mm.templateProvider
          Identifier := "podA" }
        (getMeasurementInstance recordingEnv "latency" "podA" recordingInit).2.world).1.2 ∧
    (Execute recordingEnv "latency" "podA" [("threshold", "100")] recordingInit).2.world
      = (recordingEnv.execute 100
        { ClientSets := recordingInit.mm.clientSets
          DynamicClients := recordingInit.mm.dynamicClients
          ClusterConfig := recordingInit.mm.clusterConfig
          Params := [("threshold", "100")]
          TemplateProvider := recordingInit.mm.templateProvider
          Identifier := "podA" }
        (getMeasurementInstance recordingEnv "latency" "podA" recordingInit).2.world).2 ∧
    (Execute recordingEnv "latency" "podA" [("threshold", "100")] recordingInit).2.mm.summaries
      = recordingInit.mm.summaries ++ (recordingEnv.execute 100
        { ClientSets := recordingInit.mm.clientSets
          DynamicClients := recordingInit.mm.dynamicClients
          ClusterConfig := recordingInit.mm.clusterConfig
          Params := [("threshold", "100")]
          TemplateProvider := recordingInit.mm.templateProvider
          Identifier := "podA" }
        (getMeasurementInstance recordingEnv "latency" "podA" recordingInit).2.world).1.1 ∧
    (newEvents recordingInit.trace.length (Execute recordingEnv "latency" "podA" [("threshold", "100")] recordingInit).2.trace).filterMap Event.executeArgs
      = [(100,
        { ClientSets := recordingInit.mm.clientSets
          DynamicClients := recordingInit.mm.dynamicClients
          ClusterConfig := recordingInit.mm.clusterConfig
          Params := [("threshold", "100")]
          TemplateProvider := recordingInit.mm.templateProvider
          Identifier := "podA" })] ∧
    ∀ later : ParamMap,
    (Execute recordingEnv "latency" "podA" later (Execute recordingEnv "latency" "podA" [("threshold", "100")] recordingInit).2).1
      = (recordingEnv.execute 100
        { ClientSets := recordingInit.mm.clientSets
          DynamicClients := recordingInit.mm.dynamicClients
          ClusterConfig := recordingInit.mm.clusterConfig
          Params := later
          TemplateProvider := recordingInit.mm.templateProvider
          Identifier := "podA" }
        (Execute recordingEnv "latency" "podA" [("threshold", "100")] recordingInit).2.world).1.2 ∧
    (Execute recordingEnv "latency" "podA" later (Execute recordingEnv "latency" "podA" [("threshold", "100")] recordingInit).2).2.world
      = (recordingEnv.execute 100
        { ClientSets := recordingInit.mm.clientSets
          DynamicClients := recordingInit.mm.dynamicClients
          ClusterConfig := recordingInit.mm.clusterConfig
          Params := later
          TemplateProvider := recordingInit.mm.templateProvider
          Identifier := "podA" }
        (Execute recordingEnv "latency" "podA" [("threshold", "100")] recordingInit).2.world).2 ∧
    (Execute recordingEnv "latency" "podA" later (Execute recordingEnv "latency" "podA" [("threshold", "100")] recordingInit).2).2.mm.summaries
      = (Execute recordingEnv "latency" "podA" [("threshold", "100")] recordingInit).2.mm.summaries ++ (recordingEnv.execute 100
        { ClientSets := recordingInit.mm.clientSets
          DynamicClients := recordingInit.mm.dynamicClients
          ClusterConfig := recordingInit.mm.clusterConfig
          Params := later
          TemplateProvider := recordingInit.mm.templateProvider
          Identifier := "podA" }
        (Execute recordingEnv "latency" "podA" [("threshold", "100")] recordingInit).2.world).1.1 ∧
    (newEvents (Execute recordingEnv "latency" "podA" [("threshold", "100")] recordingInit).2.trace.length (Execute recordingEnv "latency" "podA" later (Execute recordingEnv "latency" "podA" [("threshold", "100")] recordingInit).2).2.trace).filterMap Event.executeArgs
      = [(100,
        { ClientSets := recordingInit.mm.clientSets
          DynamicClients := recordingInit.mm.dynamicClients
          ClusterConfig := recordingInit.mm.clusterConfig
          Params := later
          TemplateProvider := recordingInit.mm.templateProvider
          Identifier := "podA" })] :=
  ⟨by rfl, by decide,
    Execute_passes_call_config recordingEnv "latency" "podA" [("threshold", "100")]
      recordingInit _ 100 (by rfl)⟩

/-- C10, the code at a concrete call. The first `Execute` on ("latency", "podA") logs
lock, factory call, unlock, instance call and then the append to the accumulator: the
mutex is released before the append and is not held when the append happens. -/
theorem append_runs_outside_lock :
    (Execute exampleEnv "latency" "podA" [("threshold", "100")] exampleInit).2.trace
      = [Event.lock, Event.createMeasurement "latency", Event.unlock,
          Event.execute 100 (mkConfig exampleInit.mm "podA" [("threshold", "100")]),
          Event.appendSummaries [⟨"threshold", "100"⟩]] ∧
    lockHeld false
      (Execute exampleEnv "latency" "podA" [("threshold", "100")]
        exampleInit).2.trace.dropLast = false ∧
    (Execute exampleEnv "latency" "podA" [("threshold", "100")] exampleInit).2.mm.summaries
      = exampleInit.mm.summaries ++ [⟨"threshold", "100"⟩] := by
  decide

/-! ## The cache of a reachable state is a well-formed map -/

theorem mem_keys_mapInsert {β : Type} (k k' : String) (v : β) (l : List (String × β)) :
    k' ∈ (mapInsert k v l).map Prod.fst ↔ k' = k ∨ k' ∈ l.map Prod.fst := by
  induction l with
  | nil => simp [mapInsert]
  | cons e rest ih =>
    obtain ⟨k0, v0⟩ := e
    by_cases h : k = k0
    · subst h
      simp [mapInsert]
    · simp only [mapInsert, h, if_false, List.map_cons, List.mem_cons, ih]
      tauto

theorem nodup_keys_mapInsert {β : Type} (k : String) (v : β) {l : List (String × β)}
    (hn : (l.map Prod.fst).Nodup) : ((mapInsert k v l).map Prod.fst).Nodup := by
  induction l with
  | nil => simp [mapInsert]
  | cons e rest ih =>
    obtain ⟨k0, v0⟩ := e
    simp only [List.map_cons, List.nodup_cons] at hn
    by_cases h : k = k0
    · subst h
      simpa [mapInsert] using hn
    · simp only [mapInsert, h, if_false, List.map_cons, List.nodup_cons, mem_keys_mapInsert]
      refine ⟨?_, ih hn.2⟩
      rintro (h0 | h0)
      · exact h h0.symm
      · exact hn.1 h0

theorem mem_mapInsert {β : Type} {k : String} {v : β} {l : List (String × β)}
    {e : String × β} (he : e ∈ mapInsert k v l) : e = (k, v) ∨ e ∈ l := by
  induction l with
  | nil => simpa [mapInsert] using he
  | cons e0 rest ih =>
    obtain ⟨k0, v0⟩ := e0
    by_cases h : k = k0
    · simp only [mapInsert, h, if_true, List.mem_cons] at he
      rcases he with he | he
      · left; rw [he, h]
      · right; exact List.mem_cons_of_mem _ he
    · simp only [mapInsert, h, if_false, List.mem_cons] at he
      rcases he with he | he
      · right; rw [he]; exact List.mem_cons_self _ _
      · rcases ih he with h1 | h1
        · left; exact h1
        · right; exact List.mem_cons_of_mem _ h1

theorem MapWF_ensureMethod (methodName : String) {m : MeasurementMap} (hwf : MapWF m) :
    MapWF (ensureMethod methodName m) := by
  unfold ensureMethod
  split
  · refine ⟨nodup_keys_mapInsert _ _ hwf.1, ?_⟩
    intro e he
    rcases mem_mapInsert he with rfl | he
    · simp
    · exact hwf.2 e he
  · exact hwf

theorem MapWF_mapInsert2 (methodName identifier : String) (v : Measurement)
    {m : MeasurementMap} (hwf : MapWF m) : MapWF (mapInsert2 methodName identifier v m) := by
  unfold mapInsert2
  refine ⟨nodup_keys_mapInsert _ _ hwf.1, ?_⟩
  intro e he
  rcases mem_mapInsert he with rfl | he
  · apply nodup_keys_mapInsert
    cases hl : mapLookup methodName m with
    | none => simp
    | some inner => exact hwf.2 _ (mem_of_mapLookup hl)
  · exact hwf.2 e he

/-- Every reachable state satisfies the representation invariant of the nested map. -/
theorem Reachable.mapWF {W : Type} {env : Env W} {s : State W} (hr : Reachable env s) :
    MapWF s.mm.measurements := by
  induction hr with
  | create f clusterConfig templateProvider w =>
    simp [initState, CreateMeasurementManager, MapWF]
  | execute methodName identifier params s _ ih =>
    cases hi : mapIndex2 methodName identifier s.mm.measurements with
    | some inst0 =>
      rw [Execute_cached env params hi]
      exact ih
    | none =>
      rcases hc : env.createMeasurement methodName s.world with ⟨r, w⟩
      cases r with
      | error err =>
        rw [Execute_error env params hi hc]
        exact MapWF_ensureMethod _ ih
      | ok inst0 =>
        rw [Execute_created env params hi hc]
        exact MapWF_mapInsert2 _ _ _ (MapWF_ensureMethod _ ih)
  | getSummaries s _ ih => exact ih
  | dispose order s _ ih =>
    rw [(Dispose_spec env order s).1]
    exact ih
  | world s w _ ih => exact ih

/-! ## The injected references -/

theorem Execute_mm_frame {W : Type} (env : Env W) (methodName identifier : String)
    (params : ParamMap) (s : State W) :
    (Execute env methodName identifier params s).2.mm
      = { s.mm with
            measurements := (Execute env methodName identifier params s).2.mm.measurements
            summaries := (Execute env methodName identifier params s).2.mm.summaries } := by
  cases hi : mapIndex2 methodName identifier s.mm.measurements with
  | some inst => rw [Execute_cached env params hi]
  | none =>
    rcases hc : env.createMeasurement methodName s.world with ⟨r, w⟩
    cases r with
    | error err => rw [Execute_error env params hi hc]; rfl
    | ok inst => rw [Execute_created env params hi hc]

theorem applyOp_refs {W : Type} (env : Env W) (o : Op) (s : State W) :
    (applyOp env o s).mm.clientSets = s.mm.clientSets ∧
    (applyOp env o s).mm.dynamicClients = s.mm.dynamicClients ∧
    (applyOp env o s).mm.clusterConfig = s.mm.clusterConfig ∧
    (applyOp env o s).mm.templateProvider = s.mm.templateProvider := by
  cases o with
  | execute c =>
    simp only [applyOp]
    rw [Execute_mm_frame]
    exact ⟨rfl, rfl, rfl, rfl⟩
  | getSummaries => exact ⟨rfl, rfl, rfl, rfl⟩
  | dispose order =>
    simp only [applyOp]
    rw [(Dispose_spec env order s).1]
    exact ⟨rfl, rfl, rfl, rfl⟩

theorem runOps_refs {W : Type} (env : Env W) (ops : List Op) (s : State W) :
    (runOps env ops s).mm.clientSets = s.mm.clientSets ∧
    (runOps env ops s).mm.dynamicClients = s.mm.dynamicClients ∧
    (runOps env ops s).mm.clusterConfig = s.mm.clusterConfig ∧
    (runOps env ops s).mm.templateProvider = s.mm.templateProvider := by
  induction ops generalizing s with
  | nil => exact ⟨rfl, rfl, rfl, rfl⟩
  | cons o os ih =>
    simp only [runOps]
    obtain ⟨h1, h2, h3, h4⟩ := ih (applyOp env o s)
    obtain ⟨g1, g2, g3, g4⟩ := applyOp_refs env o s
    exact ⟨h1.trans g1, h2.trans g2, h3.trans g3, h4.trans g4⟩

/-- C11. `Execute`, `GetSummaries` and `Dispose` never change the injected references:
in every manager state each of the three operations leaves clientSets, dynamicClients,
clusterConfig and templateProvider as they were, and after any sequence of these
operations on a manager from `CreateMeasurementManager` the four fields still hold the
values given at construction. -/
theorem injected_references_never_change {W : Type} (env : Env W) (o : Op) (s : State W)
    (f : Framework) (clusterConfig templateProvider : Ptr) (w : W) (ops : List Op) :
    ((applyOp env o s).mm.clientSets = s.mm.clientSets ∧
      (applyOp env o s).mm.dynamicClients = s.mm.dynamicClients ∧
      (applyOp env o s).mm.clusterConfig = s.mm.clusterConfig ∧
      (applyOp env o s).mm.templateProvider = s.mm.templateProvider) ∧
    ((runOps env ops (initState f clusterConfig templateProvider w)).mm.clientSets
        = f.clientSets ∧
      (runOps env ops (initState f clusterConfig templateProvider w)).mm.dynamicClients
        = f.dynamicClients ∧
      (runOps env ops (initState f clusterConfig templateProvider w)).mm.clusterConfig
        = clusterConfig ∧
      (runOps env ops (initState f clusterConfig templateProvider w)).mm.templateProvider
        = templateProvider) :=
  ⟨applyOp_refs env o s, runOps_refs env ops (initState f clusterConfig templateProvider w)⟩

/-! ## The scope of the mutex -/

/-- The events one `Execute` call logs, on each of its three paths. -/
theorem Execute_newEvents_cases {W : Type} (env : Env W) (methodName identifier : String)
    (params : ParamMap) (s : State W) :
    (∃ inst config batch,
      newEvents s.trace.length (Execute env methodName identifier params s).2.trace
        = [Event.lock, Event.unlock, Event.execute inst config,
            Event.appendSummaries batch]) ∨
    newEvents s.trace.length (Execute env methodName identifier params s).2.trace
      = [Event.lock, Event.createMeasurement methodName, Event.unlock] ∨
    (∃ inst config batch,
      newEvents s.trace.length (Execute env methodName identifier params s).2.trace
        = [Event.lock, Event.createMeasurement methodName, Event.unlock,
            Event.execute inst config, Event.appendSummaries batch]) := by
  cases hi : mapIndex2 methodName identifier s.mm.measurements with
  | some inst =>
    left
    rw [Execute_cached env params hi, newEvents_append]
    exact ⟨_, _, _, rfl⟩
  | none =>
    rcases hc : env.createMeasurement methodName s.world with ⟨r, w⟩
    cases r with
    | error err =>
      right; left
      rw [Execute_error env params hi hc, newEvents_append]
    | ok inst =>
      right; right
      rw [Execute_created env params hi hc, newEvents_append]
      exact ⟨_, _, _, rfl⟩

/-- C12. In the trace of every `Execute` call the mutex is acquired once and released
once, it is free when the call ends (on every path, the error paths included), every
call to the factory happens while it is held, and the instance's `Execute` is never
invoked while it is held. -/
theorem lock_held_only_for_lookup_or_create {W : Type} (env : Env W)
    (methodName identifier : String) (params : ParamMap) (s : State W) :
    (newEvents s.trace.length
      (Execute env methodName identifier params s).2.trace).count Event.lock = 1 ∧
    (newEvents s.trace.length
      (Execute env methodName identifier params s).2.trace).count Event.unlock = 1 ∧
    lockHeld false (newEvents s.trace.length
      (Execute env methodName identifier params s).2.trace) = false ∧
    (∀ (n : Nat) (m : String),
      (newEvents s.trace.length
        (Execute env methodName identifier params s).2.trace)[n]?
          = some (Event.createMeasurement m) →
      lockHeld false ((newEvents s.trace.length
        (Execute env methodName identifier params s).2.trace).take n) = true) ∧
    (∀ (n : Nat) (inst : Measurement) (config : MeasurementConfig),
      (newEvents s.trace.length
        (Execute env methodName identifier params s).2.trace)[n]?
          = some (Event.execute inst config) →
      lockHeld false ((newEvents s.trace.length
        (Execute env methodName identifier params s).2.trace).take n) = false) := by
  rcases Execute_newEvents_cases env methodName identifier params s with
    ⟨inst, config, batch, h⟩ | h | ⟨inst, config, batch, h⟩
  · rw [h]
    refine ⟨by simp, by simp, by simp [lockHeld], ?_, ?_⟩
    · intro n m hn
      rcases n with _ | _ | _ | _ | n <;> simp at hn
    · intro n i c hn
      rcases n with _ | _ | _ | _ | n <;> simp at hn
      simp [lockHeld]
  · rw [h]
    refine ⟨by simp, by simp, by simp [lockHeld], ?_, ?_⟩
    · intro n m hn
      rcases n with _ | _ | _ | n <;> simp at hn
      simp [lockHeld]
    · intro n i c hn
      rcases n with _ | _ | _ | n <;> simp at hn
  · rw [h]
    refine ⟨by simp, by simp, by simp [lockHeld], ?_, ?_⟩
    · intro n m hn
      rcases n with _ | _ | _ | _ | _ | n <;> simp at hn
      simp [lockHeld]
    · intro n i c hn
      rcases n with _ | _ | _ | _ | _ | n <;> simp at hn
      simp [lockHeld]

theorem lock_held_only_for_lookup_or_create_witness :
    (newEvents exampleInit.trace.length
      (Execute exampleEnv "latency" "podA" [] exampleInit).2.trace)[1]?
        = some (Event.createMeasurement "latency") ∧
    lockHeld false ((newEvents exampleInit.trace.length
      (Execute exampleEnv "latency" "podA" [] exampleInit).2.trace).take 1) = true ∧
    (newEvents exampleInit.trace.length
      (Execute exampleEnv "latency" "podA" [] exampleInit).2.trace)[3]?
        = some (Event.execute 100 (mkConfig exampleInit.mm "podA" [])) ∧
    lockHeld false ((newEvents exampleInit.trace.length
      (Execute exampleEnv "latency" "podA" [] exampleInit).2.trace).take 3) = false :=
  ⟨by decide,
    (lock_held_only_for_lookup_or_create exampleEnv "latency" "podA" [] exampleInit).2.2.2.1
      1 "latency" (by decide),
    by decide,
    (lock_held_only_for_lookup_or_create exampleEnv "latency" "podA" [] exampleInit).2.2.2.2
      3 100 (mkConfig exampleInit.mm "podA" []) (by decide)⟩

/-! ## The cache after `Execute` and after `Dispose` -/

theorem mem_cachedInstances_of_mapIndex2 {m : MeasurementMap} {methodName identifier : String}
    {inst : Measurement} (h : mapIndex2 methodName identifier m = some inst) :
    inst ∈ cachedInstances m := by
  cases h1 : mapLookup methodName m with
  | none => simp [mapIndex2, h1] at h
  | some inner =>
    have h2 : mapLookup identifier inner = some inst := by
      simpa [mapIndex2, h1] using h
    simp only [cachedInstances, List.mem_flatMap, List.mem_map]
    exact ⟨(methodName, inner), mem_of_mapLookup h1, (identifier, inst),
      mem_of_mapLookup h2, rfl⟩

/-- C14. `Dispose` leaves the instance cache unchanged, whatever order its loops take.
The world it leaves is the one obtained by invoking `Dispose()` in turn on the visited
instances, which are, as a multiset, the cached ones.  A second `Dispose`, in any order,
finds the same cache and invokes `Dispose()` on the same multiset of instances again.
A later `Execute` on a cached pair runs no constructor: it applies the `Execute` of the
cached, already disposed instance to the world `Dispose` left, returns its error, appends
its batch, and leaves the cache as it was. -/
theorem Dispose_keeps_cache {W : Type} (env : Env W) (order order2 : RangeOrder)
    (s : State W) :
    (Dispose env order s).mm.measurements = s.mm.measurements ∧
    (∃ visited visited2 : List Measurement,
      Multiset.ofList visited = Multiset.ofList (cachedInstances s.mm.measurements) ∧
      (∀ methodName identifier inst,
        mapIndex2 methodName identifier s.mm.measurements = some inst → inst ∈ visited) ∧
      (Dispose env order s).world = visited.foldl (fun w x => env.dispose x w) s.world ∧
      newEvents s.trace.length (Dispose env order s).trace = visited.map Event.dispose ∧
      Multiset.ofList visited2 = Multiset.ofList visited ∧
      (Dispose env order2 (Dispose env order s)).mm.measurements = s.mm.measurements ∧
      (Dispose env order2 (Dispose env order s)).world
        = visited2.foldl (fun w x => env.dispose x w) (Dispose env order s).world ∧
      newEvents (Dispose env order s).trace.length
          (Dispose env order2 (Dispose env order s)).trace
        = visited2.map Event.dispose) ∧
    (∀ (methodName identifier : String) (inst : Measurement) (params : ParamMap),
      mapIndex2 methodName identifier s.mm.measurements = some inst →
      (Execute env methodName identifier params (Dispose env order s)).1
        = (env.execute inst (mkConfig s.mm identifier params)
            (Dispose env order s).world).1.2 ∧
      (Execute env methodName identifier params (Dispose env order s)).2.world
        = (env.execute inst (mkConfig s.mm identifier params)
            (Dispose env order s).world).2 ∧
      (Execute env methodName identifier params (Dispose env order s)).2.mm.summaries
        = s.mm.summaries ++ (env.execute inst (mkConfig s.mm identifier params)
            (Dispose env order s).world).1.1 ∧
      (Execute env methodName identifier params (Dispose env order s)).2.mm.measurements
        = s.mm.measurements ∧
      (newEvents (Dispose env order s).trace.length
          (Execute env methodName identifier params (Dispose env order s)).2.trace).filter
        Event.isCreate = [] ∧
      (newEvents (Dispose env order s).trace.length
          (Execute env methodName identifier params (Dispose env order s)).2.trace).filterMap
        Event.executedOn = [inst]) := by
  obtain ⟨hmm, htr, hw⟩ := Dispose_spec env order s
  obtain ⟨hmm2, htr2, hw2⟩ := Dispose_spec env order2 (Dispose env order s)
  rw [hmm] at hmm2 htr2 hw2
  have hp1 := visitedInstances_perm order s.mm.measurements
  have hp2 := visitedInstances_perm order2 s.mm.measurements
  refine ⟨by rw [hmm], ⟨visitedInstances order s.mm.measurements,
    visitedInstances order2 s.mm.measurements, Multiset.coe_eq_coe.mpr hp1, ?_, hw, ?_,
    Multiset.coe_eq_coe.mpr (hp2.trans hp1.symm), by rw [hmm2], hw2, ?_⟩, ?_⟩
  · intro methodName identifier inst h
    exact hp1.symm.subset (mem_cachedInstances_of_mapIndex2 h)
  · rw [htr, newEvents_append]
  · rw [htr2, newEvents_append]
  · intro methodName identifier inst params h
    have h' : mapIndex2 methodName identifier (Dispose env order s).mm.measurements
        = some inst := by
      rw [hmm]
      exact h
    rw [Execute_cached env params h', newEvents_append, hmm]
    refine ⟨rfl, rfl, rfl, rfl, ?_, ?_⟩
    · simp [List.filter_cons, Event.isCreate]
    · simp [List.filterMap_cons, Event.executedOn]

theorem Dispose_keeps_cache_witness :
    mapIndex2 "latency" "podB" recordingCached.mm.measurements = some 102 ∧
    (Execute recordingEnv "latency" "podB" []
        (Dispose recordingEnv reverseOrder recordingCached)).2.world
      = recordingCached.world ++ [Seen.disposed 102, Seen.disposed 100,
          Seen.executed 102 (mkConfig recordingCached.mm "podB" [])] ∧
    (Dispose recordingEnv storageOrder (Dispose recordingEnv reverseOrder recordingCached)).world
      = recordingCached.world ++ [Seen.disposed 102, Seen.disposed 100,
          Seen.disposed 100, Seen.disposed 102] ∧
    (Execute recordingEnv "latency" "podB" []
        (Dispose recordingEnv reverseOrder recordingCached)).1
      = (recordingEnv.execute 102 (mkConfig recordingCached.mm "podB" [])
          (Dispose recordingEnv reverseOrder recordingCached).world).1.2 ∧
    (Execute recordingEnv "latency" "podB" []
        (Dispose recordingEnv reverseOrder recordingCached)).2.world
      = (recordingEnv.execute 102 (mkConfig recordingCached.mm "podB" [])
          (Dispose recordingEnv reverseOrder recordingCached).world).2 ∧
    (Execute recordingEnv "latency" "podB" []
        (Dispose recordingEnv reverseOrder recordingCached)).2.mm.summaries
      = recordingCached.mm.summaries ++ (recordingEnv.execute 102
          (mkConfig recordingCached.mm "podB" [])
          (Dispose recordingEnv reverseOrder recordingCached).world).1.1 ∧
    (Execute recordingEnv "latency" "podB" []
        (Dispose recordingEnv reverseOrder recordingCached)).2.mm.measurements
      = recordingCached.mm.measurements ∧
    (newEvents (Dispose recordingEnv reverseOrder recordingCached).trace.length
        (Execute recordingEnv "latency" "podB" []
          (Dispose recordingEnv reverseOrder recordingCached)).2.trace).filter
      Event.isCreate = [] ∧
    (newEvents (Dispose recordingEnv reverseOrder recordingCached).trace.length
        (Execute recordingEnv "latency" "podB" []
          (Dispose recordingEnv reverseOrder recordingCached)).2.trace).filterMap
      Event.executedOn = [102] :=
  ⟨by decide, by decide, by decide,
    (Dispose_keeps_cache recordingEnv reverseOrder storageOrder recordingCached).2.2
      "latency" "podB" 102 [] (by decide)⟩

end measurement
